import Mathlib

/-!
Verification development for the plasma repository: a shallow embedding of
the genome-to-pixel rendering pipeline and the asynchronous render scheduler,
together with theorems about the embedded code.

Conventions of the embedding:
* Rust `f32` values are modelled as exact rationals (`ℚ`); every arithmetic
  operation appearing in the embedded code paths is exact at the inputs the
  theorems evaluate, so the rational model agrees with the float code there.
* Machine integers are `ℕ` with explicit `% 2^32` where the source wraps.
* A Rust `panic!` / failed `assert!` / out-of-bounds index is modelled by an
  `Option` result being `none`.
-/

namespace Plasma

/-- Modelled from the spec: `fastmath.rs` (the `FastMath` trait providing
`wrap`, `clamp`, `lerp` for `f32`) is not under `src/`; only its callers are.
The spec defines `wrap` as normalization of a real value into `[0,1)`
preserving periodicity (fractional part taken such that the result is always
non-negative), so `wrap v = v - ⌊v⌋`. -/
def FastMath.wrap (v : ℚ) : ℚ := v - ⌊v⌋

/-- Modelled from the spec: `fastmath.rs` is not under `src/`. `clamp x lo hi`
restricts `x` into the interval `[lo, hi]` (Rust `x.clamp(lo, hi)`,
i.e. `min (max x lo) hi`). -/
def FastMath.clamp (x lo hi : ℚ) : ℚ := min (max x lo) hi

/-- Modelled from the spec: `fastmath.rs` is not under `src/`. `lerp a b t`
linearly interpolates from `a` to `b` by fraction `t`. -/
def FastMath.lerp (a b t : ℚ) : ℚ := a + (b - a) * t

/-- Truncation of a rational toward zero, the rounding used by Rust's
`f32::trunc` and by the float remainder operator `%`. -/
def qtrunc (q : ℚ) : ℤ := if q < 0 then -⌊-q⌋ else ⌊q⌋

/-- Rust `f32::fract`: `self - self.trunc()`. -/
def qfract (q : ℚ) : ℚ := q - qtrunc q

/-- Rust `%` on floats: remainder with the sign of the dividend,
`a - b * trunc (a / b)`. -/
def qrem (a b : ℚ) : ℚ := a - b * qtrunc (a / b)

/-- Rust `f32::round`: round to nearest integer, ties away from zero. -/
def rustRound (q : ℚ) : ℤ := if q < 0 then -⌊-q + 1/2⌋ else ⌊q + 1/2⌋

/-- Rust `as u8` applied to a float (here already rounded to an integer):
a saturating cast into `0..=255`. -/
def toU8 (z : ℤ) : ℕ := (min 255 (max 0 z)).toNat

/-- RGB color with byte channels, from `gradient.rs` (`Color { r, g, b }`). -/
structure Color where
  r : ℕ
  g : ℕ
  b : ℕ
deriving DecidableEq

/-- `Color::new(r, g, b)`. -/
def Color.new (r g b : ℕ) : Color := ⟨r, g, b⟩

/-- The sector computation of `Color::from_hsv` (`src/colormapper.rs` line
13): `(h*6.0).floor() % 6.0` with `h` the wrapped hue and `%` the float
remainder. -/
def hsvSector (hue : ℚ) : ℚ := qrem ((⌊FastMath.wrap hue * 6⌋ : ℤ) : ℚ) 6

/-- The sector `match` of `Color::from_hsv` (`src/colormapper.rs` lines
14-25), producing the raw `(r, g, b)` channels in `[0,1]` scale; `none` is the
panicking default arm. -/
def hsvRgbRaw (hue saturation value : ℚ) : Option (ℚ × ℚ × ℚ) :=
  let s := FastMath.clamp saturation 0 1
  let v := FastMath.clamp value 0 1
  let sector := hsvSector hue
  let offset := qfract (FastMath.wrap hue * 6)
  let upper := v
  let lower := v * (1 - s)
  if sector = 0 then some (upper, FastMath.lerp lower upper offset, lower)
  else if sector = 1 then some (FastMath.lerp upper lower offset, upper, lower)
  else if sector = 2 then some (lower, upper, FastMath.lerp lower upper offset)
  else if sector = 3 then some (lower, FastMath.lerp upper lower offset, upper)
  else if sector = 4 then some (FastMath.lerp lower upper offset, lower, upper)
  else if sector = 5 then some (upper, lower, FastMath.lerp upper lower offset)
  else none

/-- `Color::from_hsv` from `src/colormapper.rs` lines 8-32: wrap the hue,
clamp saturation and value, dispatch on the sector (`none` models the
`panic!` in the default arm), then scale each channel by 255, round, and cast
to a byte. -/
def Color.from_hsv (hue saturation value : ℚ) : Option Color :=
  (hsvRgbRaw hue saturation value).map (fun c =>
    Color.new (toU8 (rustRound (c.1 * 255))) (toU8 (rustRound (c.2.1 * 255)))
      (toU8 (rustRound (c.2.2 * 255))))

/-- A gene: a fixed-length byte sequence (`genetics.rs` is not under `src/`;
the `Gene { data }` shape is visible in the test modules of
`src/asyncrenderer.rs` and `src/colormapper.rs`). Bytes are naturals;
the theorems that depend on byte ranges carry explicit bounds. -/
structure Gene where
  data : List ℕ
deriving DecidableEq

/-- A chromosome: an ordered sequence of genes (shape visible in `main.rs`). -/
structure Chromosome where
  genes : List Gene
deriving DecidableEq

/-- A genome: one pattern chromosome and one color chromosome
(shape visible in `main.rs` and the test modules). -/
structure Genome where
  pattern : Chromosome
  color : Chromosome
deriving DecidableEq

/-- Rendering settings (`settings.rs` is not under `src/`; the field set is
visible in `main.rs` and in `dummy_settings()` of the asyncrenderer tests). -/
structure RenderingSettings where
  dithering : Bool
  frames_per_second : ℚ
  loop_duration : ℚ
  palette_size : Option ℕ
  width : ℕ
  height : ℕ
deriving DecidableEq

/-- A gradient control point: a color plus a position (`gradient.rs` shape,
visible from `ControlPoint { color, position }` uses in `src/colormapper.rs`). -/
structure ControlPoint where
  color : Color
  position : ℚ
deriving DecidableEq

/-- `ControlPoint::from_gene` from `src/colormapper.rs` lines 36-52. The outer
`Option` models panics: `none` when the `assert!(gene.data.len() == 5)` fails
or when `Color::from_hsv` itself panics; `some none` is the inactive-gene
result, `some (some cp)` the decoded control point. -/
def ControlPoint.from_gene (gene : Gene) : Option (Option ControlPoint) :=
  if gene.data.length = 5 then
    if gene.data.getD 0 0 > 160 then
      let h := (gene.data.getD 1 0 : ℚ) / 256
      let s := (gene.data.getD 2 0 : ℚ) / 255
      let v := (gene.data.getD 3 0 : ℚ) / 255
      let position := (gene.data.getD 4 0 : ℚ) / 256
      match Color.from_hsv h s v with
      | some c => some (some ⟨c, position⟩)
      | none => none
    else some none
  else none

/-- `LOOKUP_TABLE_SIZE` from `src/colormapper.rs` line 5. -/
def LOOKUP_TABLE_SIZE : ℕ := 256

/-- The `ColorMapper` of `src/colormapper.rs` lines 54-56: a 256-entry
precomputed color table. -/
structure ColorMapper where
  lookup_table : Fin LOOKUP_TABLE_SIZE → Color

/-- The lookup-index computation of `ColorMapper::convert`
(`src/colormapper.rs` line 84):
`(value.wrap()*(LOOKUP_TABLE_SIZE as f32)).floor() as usize % LOOKUP_TABLE_SIZE`.
`as usize` on a float is a saturating cast, hence `Int.toNat`. -/
def ColorMapper.convertIndex (value : ℚ) : ℕ :=
  (⌊FastMath.wrap value * (LOOKUP_TABLE_SIZE : ℚ)⌋).toNat % LOOKUP_TABLE_SIZE

/-- `ColorMapper::convert` from `src/colormapper.rs` lines 83-86. -/
def ColorMapper.convert (cm : ColorMapper) (value : ℚ) : Color :=
  cm.lookup_table ⟨ColorMapper.convertIndex value,
    Nat.mod_lt _ (by norm_num [LOOKUP_TABLE_SIZE])⟩

/-- Channel-wise linear interpolation between two colors, rounded back to a
byte. Modelled from the spec: `gradient.rs` is not under `src/`; §4.2 says the
two endpoint colors of a segment are "linearly interpolate[d] channel-wise by
the normalized offset within that segment". -/
def segColor (ca cb : Color) (t : ℚ) : Color :=
  Color.new (toU8 (rustRound (FastMath.lerp (ca.r : ℚ) (cb.r : ℚ) t)))
    (toU8 (rustRound (FastMath.lerp (ca.g : ℚ) (cb.g : ℚ) t)))
    (toU8 (rustRound (FastMath.lerp (ca.b : ℚ) (cb.b : ℚ) t)))

/-- Modelled from the spec (`gradient.rs` missing): the color of the gradient
segment that starts at control point `a` and ends at color `cb` placed at
position `bpos`, sampled at position `q`; the offset within the segment is
normalized by the segment's span. -/
def segEval (a : ControlPoint) (cb : Color) (bpos : ℚ) (q : ℚ) : Color :=
  let span := bpos - a.position
  let t := if span = 0 then 0 else (q - a.position) / span
  segColor a.color cb t

/-- Modelled from the spec (`gradient.rs` missing): walk the sorted control
points and evaluate the enclosing segment; past the last point, the implicit
wrap-around segment connects back to the first point at `position + 1`. -/
def gradWalk (first : ControlPoint) : ControlPoint → List ControlPoint → ℚ → Color
  | prev, [], q => segEval prev first.color (first.position + 1) q
  | prev, nxt :: rest, q =>
      if q < nxt.position then segEval prev nxt.color nxt.position q
      else gradWalk first nxt rest q

/-- Modelled from the spec (`gradient.rs` missing): sample the circular
gradient built over `pts` (assumed sorted ascending by position) at `q` in
`[0,1)`; positions before the first point lie on the wrap-around segment. -/
def gradientColorAt (pts : List ControlPoint) (q : ℚ) : Color :=
  match pts with
  | [] => Color.new 0 0 0
  | first :: rest =>
      if q < first.position then
        match (first :: rest).getLast? with
        | some lastPt => segEval lastPt first.color (first.position + 1) (q + 1)
        | none => Color.new 0 0 0
      else gradWalk first first rest q

/-- The control points decoded from a color chromosome, skipping inactive
genes, as in `ColorMapper::new` (`src/colormapper.rs` lines 61-66). A gene on
which decoding would panic contributes no control point here; the decode
totality theorem shows that case never occurs. -/
def decodeControlPoints (c : Chromosome) : List ControlPoint :=
  c.genes.filterMap (fun g => (ControlPoint.from_gene g).getD none)

/-- Modelled from the spec: the finished color mapper consumed by
`renderer.rs` (two-argument constructor, `get_nearest_color`,
`get_dithered_color`) is not under `src/`; `src/colormapper.rs` is an earlier
prototype of the same component. Construction per §4.2: decode control points,
fall back to a single black point at position 0 when none decode, sort
ascending by position, and sample the circular gradient at `i/256` for each
of the 256 table slots. -/
structure ColorMapperFull where
  lookup_table : Fin LOOKUP_TABLE_SIZE → Color

/-- Modelled from the spec (§4.2): construction of the finished color mapper.
The settings argument plays no role in table construction (the spec assigns
`palette_size` to file export only); it is kept for signature fidelity with
the call in `renderer.rs` line 40. -/
def ColorMapperFull.new (chromosome : Chromosome) (_settings : RenderingSettings) :
    ColorMapperFull :=
  let pts := decodeControlPoints chromosome
  let pts2 := if pts.isEmpty then [⟨Color.new 0 0 0, 0⟩] else pts
  let sorted := List.insertionSort (fun a b => a.position ≤ b.position) pts2
  ⟨fun i => gradientColorAt sorted ((i : ℚ) / (LOOKUP_TABLE_SIZE : ℚ))⟩

/-- Modelled from the spec (§4.2 `convert`): nearest-bucket lookup, the same
wrap/floor/mod index computation as the prototype `ColorMapper::convert`. -/
def ColorMapperFull.get_nearest_color (cm : ColorMapperFull) (value : ℚ) : Color :=
  cm.lookup_table ⟨ColorMapper.convertIndex value,
    Nat.mod_lt _ (by norm_num [LOOKUP_TABLE_SIZE])⟩

/-- Modelled from the spec (§4.2 `dithered_convert`): a fixed deterministic
per-pixel offset pattern, a pure function of the integer pixel coordinates. -/
def ditherOffset (x y : ℕ) : ℚ := ((x % 2 + 2 * (y % 2) : ℕ) : ℚ) / 4

/-- Modelled from the spec (§4.2 `dithered_convert`): same wrapping and index
computation as `get_nearest_color`, with the effective index perturbed by the
deterministic per-pixel offset before quantization. -/
def ColorMapperFull.get_dithered_color (cm : ColorMapperFull) (value : ℚ)
    (x y : ℕ) : Color :=
  cm.lookup_table
    ⟨(⌊FastMath.wrap value * (LOOKUP_TABLE_SIZE : ℚ) + ditherOffset x y⌋).toNat %
        LOOKUP_TABLE_SIZE,
      Nat.mod_lt _ (by norm_num [LOOKUP_TABLE_SIZE])⟩

/-- Modelled from the spec: `formulas.rs` is not under `src/`. Per §3, a
formula's parameters are a numeric tuple (frequencies, phase, weight)
decoded from a pattern-chromosome gene. -/
structure FormulaParams where
  freq_x : ℚ
  freq_y : ℚ
  freq_t : ℚ
  phase : ℚ
  weight : ℚ
deriving DecidableEq

/-- Modelled from the spec (§4.1 `decode_formula_params`): a fixed,
deterministic, total byte-to-numeric-range mapping for one field term;
missing bytes read as 0 so the map is total on every gene. -/
def decode_formula_params (g : Gene) : FormulaParams :=
  ⟨(g.data.getD 0 0 : ℚ) / 32 - 4, (g.data.getD 1 0 : ℚ) / 32 - 4,
    (g.data.getD 2 0 : ℚ) / 32 - 4, (g.data.getD 3 0 : ℚ) / 256,
    (g.data.getD 4 0 : ℚ) / 128 - 1⟩

/-- Modelled from the spec (§4.3): a computable periodic stand-in for the
"cosine-like wave" of one field term — period 1, range `[-1, 1]`, maximal at
integer arguments like cosine of a full turn. -/
def cosWave (u : ℚ) : ℚ := 4 * |FastMath.wrap u - 1/2| - 1

/-- Modelled from the spec (§4.3): the field formula engine holds an ordered
sequence of decoded formula parameters plus the current time. -/
structure PlasmaFormulas where
  params : List FormulaParams
  time : ℚ
deriving DecidableEq

/-- Modelled from the spec (§4.3): decode every pattern gene, in gene order. -/
def PlasmaFormulas.from_chromosome (c : Chromosome) : PlasmaFormulas :=
  ⟨c.genes.map decode_formula_params, 0⟩

/-- Modelled from the spec (§4.3 `set_time`). -/
def PlasmaFormulas.set_time (f : PlasmaFormulas) (t : ℚ) : PlasmaFormulas :=
  { f with time := t }

/-- Modelled from the spec (§4.3 `get_value`): each term is a weighted
periodic wave of a linear combination of `x`, `y` and time; the terms are
summed and the raw sum is not normalized here. -/
def PlasmaFormulas.get_value (f : PlasmaFormulas) (x y : ℚ) : ℚ :=
  f.params.foldl
    (fun acc p =>
      acc + p.weight *
        cosWave (p.freq_x * x + p.freq_y * y + p.freq_t * f.time + p.phase)) 0

/-- The `Image` of `src/renderer.rs` lines 9-13: a width x height RGB buffer,
row-major, 3 bytes per pixel. -/
structure Image where
  width : ℕ
  height : ℕ
  pixel_data : List ℕ
deriving DecidableEq

/-- `Image::new` from `src/renderer.rs` lines 22-28. -/
def Image.new (width height : ℕ) : Image :=
  ⟨width, height, List.replicate (width * height * 3) 0⟩

/-- `Image::plot` from `src/renderer.rs` lines 30-35: writes the three channel
bytes at offset `(x + y*width)*3`. `none` models the panic of an
out-of-bounds `Vec` index; since the three indices written are `offset`,
`offset+1`, `offset+2`, all are in bounds exactly when `offset+2` is. -/
def Image.plot (img : Image) (x y : ℕ) (color : Color) : Option Image :=
  let offset := (x + y * img.width) * 3
  if offset + 2 < img.pixel_data.length then
    some { img with
      pixel_data :=
        ((img.pixel_data.set offset color.r).set (offset + 1) color.g).set
          (offset + 2) color.b }
  else none

/-- The `PlasmaRenderer` of `src/renderer.rs` lines 15-19. -/
structure PlasmaRenderer where
  dithering : Bool
  color_mapper : ColorMapperFull
  formulas : PlasmaFormulas

/-- `PlasmaRenderer::new` from `src/renderer.rs` lines 39-47. -/
def PlasmaRenderer.new (genome : Genome) (settings : RenderingSettings) :
    PlasmaRenderer :=
  ⟨settings.dithering, ColorMapperFull.new genome.color settings,
    PlasmaFormulas.from_chromosome genome.pattern⟩

/-- The color `PlasmaRenderer::render` computes for pixel `(x, y)`
(`src/renderer.rs` lines 50-66): scale the coordinates so the shorter image
dimension spans `[-1, 1]` with the origin centered, wrap the time once,
evaluate the field value, and convert it through the color mapper (dithered
path when enabled). Factored out of the pixel loop because it depends only on
the loop indices, not on the partially written buffer. -/
def renderColorAt (r : PlasmaRenderer) (image : Image) (time : ℚ)
    (x y : ℕ) : Color :=
  let scale_mul : ℚ := 2 / min (image.width : ℚ) (image.height : ℚ)
  let scale_x_offset := -(image.width : ℚ) / 2 * scale_mul
  let scale_y_offset := -(image.height : ℚ) / 2 * scale_mul
  let f := r.formulas.set_time (FastMath.wrap time)
  let value := f.get_value (scale_mul * (x : ℚ) + scale_x_offset)
    (scale_mul * (y : ℚ) + scale_y_offset)
  if r.dithering then r.color_mapper.get_dithered_color value x y
  else r.color_mapper.get_nearest_color value

/-- `PlasmaRenderer::render` from `src/renderer.rs` lines 49-70: for every
pixel in row-major order, plot the color of `renderColorAt`. The fold is over
`Option` because `plot` can in principle panic; the mutation of
`self.formulas` by `set_time` is folded into `renderColorAt`. -/
def PlasmaRenderer.render (r : PlasmaRenderer) (image : Image) (time : ℚ) :
    Option Image :=
  (List.range image.height).foldlM
    (fun img (y : ℕ) =>
      (List.range image.width).foldlM
        (fun img2 (x : ℕ) => img2.plot x y (renderColorAt r image time x y))
        img)
    image

/-- The `AsyncRenderer` of `src/asyncrenderer.rs` lines 10-16 (the `CpuPool`
field carries no modelled state). -/
structure AsyncRenderer where
  last_request_id : ℕ
  genome : Option Genome
  genome_set : Bool
  settings : RenderingSettings

/-- `AsyncRenderer::new` from `src/asyncrenderer.rs` lines 32-42. -/
def AsyncRenderer.new (settings : RenderingSettings) : AsyncRenderer :=
  ⟨0, none, false, settings⟩

/-- `AsyncRenderer::next_request_id` from `src/asyncrenderer.rs` lines 44-47:
`wrapping_add(1)` on a `u32`, returning the new value. -/
def AsyncRenderer.next_request_id (a : AsyncRenderer) : AsyncRenderer × ℕ :=
  let newId := (a.last_request_id + 1) % 2 ^ 32
  ({ a with last_request_id := newId }, newId)

/-- `AsyncRenderer::set_genome` from `src/asyncrenderer.rs` lines 49-54. -/
def AsyncRenderer.set_genome (a : AsyncRenderer) (g : Genome) : AsyncRenderer :=
  (({ a with genome := some g, genome_set := true }).next_request_id).1

/-- `AsyncRenderer::render` from `src/asyncrenderer.rs` lines 56-66. The outer
`Option` models panics (`assert!(self.genome_set, ...)` and the
`self.genome.clone().unwrap()`). On success the pair holds the post-call
scheduler state — unchanged, because the body mutates no field of `self` —
and the value the returned `CpuFuture` eventually yields: the image computed
by a fresh `PlasmaRenderer` built from the genome and settings snapshot. -/
def AsyncRenderer.render (a : AsyncRenderer) (width height : ℕ) (time : ℚ) :
    Option (AsyncRenderer × Option Image) :=
  if a.genome_set then
    match a.genome with
    | some g =>
        let renderer := PlasmaRenderer.new g a.settings
        some (a, renderer.render (Image.new width height) time)
    | none => none
  else none

/-- The `Request` struct declared in `src/asyncrenderer.rs` lines 18-24
(declared there but never constructed; the spec-modelled scheduler below
fills it with a `some` genome snapshot). -/
structure Request where
  request_id : ℕ
  genome : Option Genome
  width : ℕ
  height : ℕ
  time : ℚ

/-- The `Response` struct declared in `src/asyncrenderer.rs` lines 26-29. -/
structure Response where
  image : Image
  request_id : ℕ

/-- The image a worker job computes for a request: a fresh `PlasmaRenderer`
built from the snapshot, rendering a fresh image at the request's time
(spec §4.5). The `getD` defaults cover the cases — a missing genome snapshot
or a panicking render — that the scheduler model never produces. -/
def Request.renderedImage (req : Request) (settings : RenderingSettings) : Image :=
  match req.genome with
  | some g =>
      ((PlasmaRenderer.new g settings).render (Image.new req.width req.height)
            req.time).getD
        (Image.new req.width req.height)
  | none => Image.new req.width req.height

/-- Modelled from the spec: the delivery half of the Async Render Scheduler is
not under `src/` — the test module of `src/asyncrenderer.rs` calls
`ar.get_image()`, which the file never defines, and its `Request`/`Response`
structs are declared but unused. Per §4.5 and §9: the scheduler owns the
current genome, a monotonically increasing request counter (§3 request ids are
"monotonically increasing"; the counter here is an unbounded natural — the
32-bit wrap of the prototype's `next_request_id` is treated separately),
the set of in-flight requests, and a single "latest authoritative response"
slot. The `current` field is specification bookkeeping: the request whose id
equals `last_request_id`, present exactly when the most recent counter bump
came from `render` — it makes the phrase "the current image" of §4.5
expressible. -/
structure Scheduler where
  last_request_id : ℕ
  genome : Option Genome
  genome_set : Bool
  settings : RenderingSettings
  inflight : List Request
  latest : Option Response
  current : Option Request

/-- Modelled from the spec (§4.5): initial `NoGenome` state. -/
def Scheduler.new (settings : RenderingSettings) : Scheduler :=
  ⟨0, none, false, settings, [], none, none⟩

/-- Modelled from the spec (§4.5 `set_genome`): store the genome, transition
to `Ready`, and advance the request counter, invalidating the notion of
"current" for requests issued before this call. -/
def Scheduler.set_genome (s : Scheduler) (g : Genome) : Scheduler :=
  { s with
    genome := some g
    genome_set := true
    last_request_id := s.last_request_id + 1
    current := none }

/-- Modelled from the spec (§4.5 `render`): precondition violation (`none`) in
`NoGenome`; otherwise advance the counter to a fresh id, snapshot the genome
and settings into a request, submit the job, and hand back the id. -/
def Scheduler.render (s : Scheduler) (width height : ℕ) (time : ℚ) :
    Option (Scheduler × ℕ) :=
  if s.genome_set then
    match s.genome with
    | some g =>
        let rid := s.last_request_id + 1
        let req : Request := ⟨rid, some g, width, height, time⟩
        some ({ s with
          last_request_id := rid
          inflight := s.inflight ++ [req]
          current := some req }, rid)
    | none => none
  else none

/-- Modelled from the spec (§9): completion of the `k`-th in-flight job. The
worker's response is installed into the latest-response slot only if its
request id still equals the current id at installation time; a superseded
response is dropped. Completing a job index that does not exist is a no-op. -/
def Scheduler.complete (s : Scheduler) (k : ℕ) : Scheduler :=
  match s.inflight[k]? with
  | some req =>
      let resp : Response := ⟨req.renderedImage s.settings, req.request_id⟩
      { s with
        inflight := s.inflight.eraseIdx k
        latest :=
          if resp.request_id = s.last_request_id then some resp else s.latest }
  | none => s

/-- Modelled from the spec (§4.5 staleness rule, §9): a query returns the
authoritative response — the completed response whose request id equals the
scheduler's current request id — if one is ready, and otherwise `none`;
the slot is cleared once a response is returned. -/
def Scheduler.get_image (s : Scheduler) : Option Image × Scheduler :=
  match s.latest with
  | some resp =>
      if resp.request_id = s.last_request_id then
        (some resp.image, { s with latest := none })
      else (none, s)
  | none => (none, s)

/-- Modelled from the spec (§5): the events whose interleavings the scheduler
must tolerate — caller-side `set_genome`/`render`/query calls and worker-side
job completions in any order. -/
inductive SchedulerOp where
  | setGenome (g : Genome)
  | render (width height : ℕ) (time : ℚ)
  | complete (k : ℕ)
  | query

/-- One scheduler transition. A `render` in `NoGenome` faults and leaves the
state unchanged; a completion of a nonexistent job index is a no-op. -/
def Scheduler.step (s : Scheduler) : SchedulerOp → Scheduler
  | .setGenome g => s.set_genome g
  | .render w h t =>
      match s.render w h t with
      | some (s2, _) => s2
      | none => s
  | .complete k => s.complete k
  | .query => (s.get_image).2

/-- Execution of a whole interleaving. -/
def Scheduler.exec (s : Scheduler) (ops : List SchedulerOp) : Scheduler :=
  ops.foldl Scheduler.step s

/-!  Numeric helper lemmas about the embedded float operations. -/

theorem wrap_eq_fract (v : ℚ) : FastMath.wrap v = Int.fract v := rfl

theorem wrap_nonneg (v : ℚ) : 0 ≤ FastMath.wrap v := by
  rw [wrap_eq_fract]; exact Int.fract_nonneg v

theorem wrap_lt_one (v : ℚ) : FastMath.wrap v < 1 := by
  rw [wrap_eq_fract]; exact Int.fract_lt_one v

theorem wrap_add_one (v : ℚ) : FastMath.wrap (v + 1) = FastMath.wrap v := by
  rw [wrap_eq_fract, wrap_eq_fract]
  simp [Int.fract_add_int v 1]

theorem clamp_mem (x : ℚ) : 0 ≤ FastMath.clamp x 0 1 ∧ FastMath.clamp x 0 1 ≤ 1 := by
  unfold FastMath.clamp
  exact ⟨le_min (le_max_right x 0) zero_le_one, min_le_right _ _⟩

theorem qtrunc_of_nonneg (q : ℚ) (h : 0 ≤ q) : qtrunc q = ⌊q⌋ := by
  unfold qtrunc; rw [if_neg (not_lt.mpr h)]

theorem qfract_mem_of_nonneg (q : ℚ) (h : 0 ≤ q) :
    0 ≤ qfract q ∧ qfract q < 1 := by
  unfold qfract
  rw [qtrunc_of_nonneg q h]
  exact ⟨Int.fract_nonneg q, Int.fract_lt_one q⟩

theorem sector_int_bounds (hue : ℚ) :
    0 ≤ ⌊FastMath.wrap hue * 6⌋ ∧ ⌊FastMath.wrap hue * 6⌋ < 6 := by
  constructor
  · exact Int.floor_nonneg.mpr (mul_nonneg (wrap_nonneg hue) (by norm_num))
  · apply Int.floor_lt.mpr
    have := wrap_lt_one hue
    push_cast
    nlinarith [wrap_nonneg hue]

theorem qrem_of_small (a : ℚ) (h0 : 0 ≤ a) (h6 : a < 6) : qrem a 6 = a := by
  unfold qrem
  have hq : qtrunc (a / 6) = 0 := by
    rw [qtrunc_of_nonneg _ (by positivity)]
    rw [Int.floor_eq_zero_iff]
    constructor
    · positivity
    · rw [div_lt_one (by norm_num)]; linarith
  rw [hq]; push_cast; ring

theorem hsvSector_eq_floor (hue : ℚ) :
    hsvSector hue = ((⌊FastMath.wrap hue * 6⌋ : ℤ) : ℚ) := by
  unfold hsvSector
  have h := sector_int_bounds hue
  apply qrem_of_small
  · exact_mod_cast h.1
  · exact_mod_cast h.2

theorem hsvSector_cases (hue : ℚ) :
    hsvSector hue = 0 ∨ hsvSector hue = 1 ∨ hsvSector hue = 2 ∨
      hsvSector hue = 3 ∨ hsvSector hue = 4 ∨ hsvSector hue = 5 := by
  rw [hsvSector_eq_floor]
  obtain ⟨h0, h6⟩ := sector_int_bounds hue
  set n := ⌊FastMath.wrap hue * 6⌋ with hn
  interval_cases n <;> norm_num

theorem lerp_bounds (a b t : ℚ) (ha : 0 ≤ a) (ha1 : a ≤ 1) (hb : 0 ≤ b)
    (hb1 : b ≤ 1) (ht : 0 ≤ t) (ht1 : t ≤ 1) :
    0 ≤ FastMath.lerp a b t ∧ FastMath.lerp a b t ≤ 1 := by
  unfold FastMath.lerp
  constructor <;> nlinarith

theorem rustRound_byte_bounds (q : ℚ) (h0 : 0 ≤ q) (h255 : q ≤ 255) :
    0 ≤ rustRound q ∧ rustRound q ≤ 255 := by
  unfold rustRound
  rw [if_neg (not_lt.mpr h0)]
  constructor
  · exact Int.floor_nonneg.mpr (by linarith)
  · have : (⌊q + 1/2⌋ : ℤ) < 256 := Int.floor_lt.mpr (by push_cast; linarith)
    omega

/-- The sector dispatch of `Color::from_hsv` always takes one of the six
defined arms, and the raw channels it produces all lie in `[0, 1]`. -/
theorem hsvRgbRaw_total (hue saturation value : ℚ) :
    ∃ rgb : ℚ × ℚ × ℚ, hsvRgbRaw hue saturation value = some rgb ∧
      0 ≤ rgb.1 ∧ rgb.1 ≤ 1 ∧ 0 ≤ rgb.2.1 ∧ rgb.2.1 ≤ 1 ∧
      0 ≤ rgb.2.2 ∧ rgb.2.2 ≤ 1 := by
  obtain ⟨hv0, hv1⟩ := clamp_mem value
  obtain ⟨hs0, hs1⟩ := clamp_mem saturation
  obtain ⟨ho0, ho1⟩ := qfract_mem_of_nonneg (FastMath.wrap hue * 6)
    (mul_nonneg (wrap_nonneg hue) (by norm_num))
  set v := FastMath.clamp value 0 1 with hvdef
  set s := FastMath.clamp saturation 0 1 with hsdef
  set offset := qfract (FastMath.wrap hue * 6) with hodef
  have hl0 : 0 ≤ v * (1 - s) := mul_nonneg hv0 (by linarith)
  have hl1 : v * (1 - s) ≤ 1 := by nlinarith
  have hlu := lerp_bounds (v * (1 - s)) v offset hl0 hl1 hv0 hv1 ho0
    (le_of_lt ho1)
  have hul := lerp_bounds v (v * (1 - s)) offset hv0 hv1 hl0 hl1 ho0
    (le_of_lt ho1)
  rcases hsvSector_cases hue with h | h | h | h | h | h <;>
    · simp only [hsvRgbRaw, ← hvdef, ← hsdef, ← hodef, h]
      norm_num
      exact ⟨by tauto, by tauto, by tauto, by tauto, by tauto, by tauto⟩

/-- Every call to `Color::from_hsv` returns a color rather than panicking. -/
theorem from_hsv_isSome (hue saturation value : ℚ) :
    ∃ c, Color.from_hsv hue saturation value = some c := by
  obtain ⟨rgb, hr, -⟩ := hsvRgbRaw_total hue saturation value
  refine ⟨Color.new (toU8 (rustRound (rgb.1 * 255)))
    (toU8 (rustRound (rgb.2.1 * 255))) (toU8 (rustRound (rgb.2.2 * 255))), ?_⟩
  unfold Color.from_hsv
  rw [hr]
  rfl

/-- C7: for every input to `Color::from_hsv`, after the hue is wrapped into
`[0,1)` and saturation and value are clamped into `[0,1]`, the sector index
`floor(h*6) % 6` resolves to one of the six defined cases — the panicking
default branch is unreachable — and each resulting RGB channel scaled by 255
and rounded lands in `0..=255`. -/
theorem from_hsv_sector_exhaustive_channels_in_range (hue saturation value : ℚ) :
    (hsvSector hue = 0 ∨ hsvSector hue = 1 ∨ hsvSector hue = 2 ∨
      hsvSector hue = 3 ∨ hsvSector hue = 4 ∨ hsvSector hue = 5) ∧
    ∃ rgb : ℚ × ℚ × ℚ,
      hsvRgbRaw hue saturation value = some rgb ∧
      Color.from_hsv hue saturation value =
        some (Color.new (toU8 (rustRound (rgb.1 * 255)))
          (toU8 (rustRound (rgb.2.1 * 255)))
          (toU8 (rustRound (rgb.2.2 * 255)))) ∧
      0 ≤ rustRound (rgb.1 * 255) ∧ rustRound (rgb.1 * 255) ≤ 255 ∧
      0 ≤ rustRound (rgb.2.1 * 255) ∧ rustRound (rgb.2.1 * 255) ≤ 255 ∧
      0 ≤ rustRound (rgb.2.2 * 255) ∧ rustRound (rgb.2.2 * 255) ≤ 255 := by
  refine ⟨hsvSector_cases hue, ?_⟩
  obtain ⟨rgb, hr, h10, h11, h20, h21, h30, h31⟩ :=
    hsvRgbRaw_total hue saturation value
  have c1 := rustRound_byte_bounds (rgb.1 * 255) (by positivity) (by nlinarith)
  have c2 := rustRound_byte_bounds (rgb.2.1 * 255) (by positivity) (by nlinarith)
  have c3 := rustRound_byte_bounds (rgb.2.2 * 255) (by positivity) (by nlinarith)
  exact ⟨rgb, hr, by simp [Color.from_hsv, hr], c1.1, c1.2, c2.1, c2.2,
    c3.1, c3.2⟩

set_option maxHeartbeats 1600000 in
/-- C6: `Color::from_hsv` reproduces the documented hue wheel at full
saturation and value, and the documented saturation scaling at hue 0. -/
theorem from_hsv_hue_wheel_values :
    Color.from_hsv 0 1 1 = some (Color.new 255 0 0) ∧
    Color.from_hsv (1/18) 1 1 = some (Color.new 255 85 0) ∧
    Color.from_hsv (3/18) 1 1 = some (Color.new 255 255 0) ∧
    Color.from_hsv (4/18) 1 1 = some (Color.new 170 255 0) ∧
    Color.from_hsv (6/18) 1 1 = some (Color.new 0 255 0) ∧
    Color.from_hsv (7/18) 1 1 = some (Color.new 0 255 85) ∧
    Color.from_hsv (9/18) 1 1 = some (Color.new 0 255 255) ∧
    Color.from_hsv (10/18) 1 1 = some (Color.new 0 170 255) ∧
    Color.from_hsv (12/18) 1 1 = some (Color.new 0 0 255) ∧
    Color.from_hsv (13/18) 1 1 = some (Color.new 85 0 255) ∧
    Color.from_hsv (15/18) 1 1 = some (Color.new 255 0 255) ∧
    Color.from_hsv (16/18) 1 1 = some (Color.new 255 0 170) ∧
    Color.from_hsv 1 1 1 = some (Color.new 255 0 0) ∧
    Color.from_hsv 0 1 1 = some (Color.new 255 0 0) ∧
    Color.from_hsv 0 (2/3) 1 = some (Color.new 255 85 85) ∧
    Color.from_hsv 0 (1/3) 1 = some (Color.new 255 170 170) := by
  refine ⟨?_, ?_, ?_, ?_, ?_, ?_, ?_, ?_, ?_, ?_, ?_, ?_, ?_, ?_, ?_, ?_⟩
  all_goals
    norm_num [Color.from_hsv, hsvRgbRaw, hsvSector, FastMath.wrap,
      FastMath.clamp, FastMath.lerp, qrem, qtrunc, qfract, rustRound, toU8]
  all_goals rfl

/-- C5: decoding a 5-byte control-point gene never fails; a first byte of at
most 160 yields no control point, and a first byte above 160 yields exactly
one control point whose color is `from_hsv(b1/256, b2/255, b3/255)` and whose
gradient position is `b4/256`. -/
theorem from_gene_decode (g : Gene) (h5 : g.data.length = 5) :
    (g.data.getD 0 0 ≤ 160 → ControlPoint.from_gene g = some none) ∧
    (160 < g.data.getD 0 0 →
      ∃ c, Color.from_hsv ((g.data.getD 1 0 : ℚ) / 256)
          ((g.data.getD 2 0 : ℚ) / 255) ((g.data.getD 3 0 : ℚ) / 255) =
            some c ∧
        ControlPoint.from_gene g =
          some (some ⟨c, (g.data.getD 4 0 : ℚ) / 256⟩)) ∧
    (ControlPoint.from_gene g).isSome = true := by
  obtain ⟨c, hc⟩ := from_hsv_isSome ((g.data.getD 1 0 : ℚ) / 256)
    ((g.data.getD 2 0 : ℚ) / 255) ((g.data.getD 3 0 : ℚ) / 255)
  by_cases hact : 160 < g.data.getD 0 0
  · have hg : ControlPoint.from_gene g =
        some (some ⟨c, (g.data.getD 4 0 : ℚ) / 256⟩) := by
      simp only [ControlPoint.from_gene, if_pos h5, if_pos hact, hc]
    refine ⟨fun hle => absurd hact (not_lt.mpr hle), fun _ => ⟨c, hc, hg⟩, ?_⟩
    rw [hg]; rfl
  · have hg : ControlPoint.from_gene g = some none := by
      simp only [ControlPoint.from_gene, if_pos h5, if_neg hact]
    refine ⟨fun _ => hg, fun hgt => absurd hgt hact, ?_⟩
    rw [hg]; rfl

/-- Witness for `from_gene_decode`: a concrete active 5-byte gene. -/
theorem from_gene_decode_witness :
    (⟨[200, 10, 20, 30, 40]⟩ : Gene).data.length = 5 ∧
    (ControlPoint.from_gene ⟨[200, 10, 20, 30, 40]⟩).isSome = true :=
  ⟨rfl, (from_gene_decode ⟨[200, 10, 20, 30, 40]⟩ rfl).2.2⟩

/-- C8: the wrap used by `ColorMapper::convert` maps every value into `[0,1)`
(negative inputs included) and is periodic with period 1, so `convert` agrees
on `v` and `v + 1` for every mapper, and the computed lookup index — both
before and after the final `% 256` — is a valid index into the 256-entry
table. -/
theorem convert_periodic_and_index_valid (cm : ColorMapper) (v : ℚ) :
    0 ≤ FastMath.wrap v ∧ FastMath.wrap v < 1 ∧
    FastMath.wrap (v + 1) = FastMath.wrap v ∧
    cm.convert v = cm.convert (v + 1) ∧
    (⌊FastMath.wrap v * (LOOKUP_TABLE_SIZE : ℚ)⌋).toNat < LOOKUP_TABLE_SIZE ∧
    ColorMapper.convertIndex v < LOOKUP_TABLE_SIZE := by
  have hidx : ColorMapper.convertIndex (v + 1) = ColorMapper.convertIndex v := by
    unfold ColorMapper.convertIndex
    rw [wrap_add_one]
  have h256 : ((LOOKUP_TABLE_SIZE : ℕ) : ℚ) = 256 := by
    norm_num [LOOKUP_TABLE_SIZE]
  have hfloor : (⌊FastMath.wrap v * (LOOKUP_TABLE_SIZE : ℚ)⌋).toNat <
      LOOKUP_TABLE_SIZE := by
    have h1 : ⌊FastMath.wrap v * ((LOOKUP_TABLE_SIZE : ℕ) : ℚ)⌋ < (256 : ℤ) := by
      apply Int.floor_lt.mpr
      rw [h256]
      push_cast
      nlinarith [wrap_lt_one v, wrap_nonneg v]
    have h2 : LOOKUP_TABLE_SIZE = 256 := rfl
    omega
  refine ⟨wrap_nonneg v, wrap_lt_one v, wrap_add_one v, ?_, hfloor,
    Nat.mod_lt _ (by norm_num [LOOKUP_TABLE_SIZE])⟩
  unfold ColorMapper.convert
  exact congrArg cm.lookup_table (Fin.ext hidx.symm)

/-- C10: `Image::plot` writes exactly the three channel bytes at offset
`(x + y*width)*3` and leaves every other byte, and the width and height,
unchanged; it checks nothing about `x` against `width` — the only premise is
that the last written byte lies inside the buffer. -/
theorem image_plot_frame_effect (img : Image) (x y : ℕ) (c : Color)
    (hin : (x + y * img.width) * 3 + 2 < img.pixel_data.length) :
    ∃ img2, img.plot x y c = some img2 ∧
      img2.width = img.width ∧ img2.height = img.height ∧
      img2.pixel_data.length = img.pixel_data.length ∧
      img2.pixel_data[(x + y * img.width) * 3]? = some c.r ∧
      img2.pixel_data[(x + y * img.width) * 3 + 1]? = some c.g ∧
      img2.pixel_data[(x + y * img.width) * 3 + 2]? = some c.b ∧
      ∀ i : ℕ, i ≠ (x + y * img.width) * 3 →
        i ≠ (x + y * img.width) * 3 + 1 →
        i ≠ (x + y * img.width) * 3 + 2 →
        img2.pixel_data[i]? = img.pixel_data[i]? := by
  set o := (x + y * img.width) * 3 with ho
  set L := img.pixel_data with hL
  have hplot : img.plot x y c =
      some { img with
        pixel_data := ((L.set o c.r).set (o + 1) c.g).set (o + 2) c.b } := by
    unfold Image.plot
    rw [if_pos hin]
  refine ⟨_, hplot, rfl, rfl, by simp, ?_, ?_, ?_, ?_⟩
  · show (((L.set o c.r).set (o + 1) c.g).set (o + 2) c.b)[o]? = some c.r
    rw [List.getElem?_set_ne (by omega), List.getElem?_set_ne (by omega),
      List.getElem?_set_self (by omega)]
  · show (((L.set o c.r).set (o + 1) c.g).set (o + 2) c.b)[o + 1]? = some c.g
    rw [List.getElem?_set_ne (by omega),
      List.getElem?_set_self (by simp; omega)]
  · show (((L.set o c.r).set (o + 1) c.g).set (o + 2) c.b)[o + 2]? = some c.b
    rw [List.getElem?_set_self (by simp; omega)]
  · intro i h0 h1 h2
    show (((L.set o c.r).set (o + 1) c.g).set (o + 2) c.b)[i]? = L[i]?
    rw [List.getElem?_set_ne (by omega), List.getElem?_set_ne (by omega),
      List.getElem?_set_ne (by omega)]

/-- Witness for `image_plot_frame_effect`: on a 2x2 image, plotting at
`x = 3 ≥ width` with offset still inside the buffer succeeds (and lands in a
later row), because `plot` never compares `x` with `width`. -/
theorem image_plot_frame_effect_witness :
    (3 + 0 * (Image.new 2 2).width) * 3 + 2 <
        (Image.new 2 2).pixel_data.length ∧
    3 ≥ (Image.new 2 2).width ∧
    ∃ img2, (Image.new 2 2).plot 3 0 (Color.new 9 8 7) = some img2 ∧
      img2.width = (Image.new 2 2).width ∧
      img2.height = (Image.new 2 2).height ∧
      img2.pixel_data.length = (Image.new 2 2).pixel_data.length ∧
      img2.pixel_data[(3 + 0 * (Image.new 2 2).width) * 3]? =
        some (Color.new 9 8 7).r ∧
      img2.pixel_data[(3 + 0 * (Image.new 2 2).width) * 3 + 1]? =
        some (Color.new 9 8 7).g ∧
      img2.pixel_data[(3 + 0 * (Image.new 2 2).width) * 3 + 2]? =
        some (Color.new 9 8 7).b ∧
      ∀ i : ℕ, i ≠ (3 + 0 * (Image.new 2 2).width) * 3 →
        i ≠ (3 + 0 * (Image.new 2 2).width) * 3 + 1 →
        i ≠ (3 + 0 * (Image.new 2 2).width) * 3 + 2 →
        img2.pixel_data[i]? = (Image.new 2 2).pixel_data[i]? :=
  ⟨by decide, by decide,
    image_plot_frame_effect (Image.new 2 2) 3 0 (Color.new 9 8 7) (by decide)⟩

/-- The calls a caller can make on the prototype `AsyncRenderer` of
`src/asyncrenderer.rs` (construction aside): `set_genome` and `render`. -/
inductive ARCall where
  | setGenome (g : Genome)
  | render (width height : ℕ) (time : ℚ)

/-- The state transition of one call on the prototype `AsyncRenderer`:
`set_genome` updates the state; `render` leaves the state as the source
returns it (a faulting `render` changes nothing). -/
def AsyncRenderer.step (a : AsyncRenderer) : ARCall → AsyncRenderer
  | .setGenome g => a.set_genome g
  | .render w h t =>
      match a.render w h t with
      | some (a2, _) => a2
      | none => a

/-- A sequence of calls on the prototype `AsyncRenderer`. -/
def AsyncRenderer.run (a : AsyncRenderer) (cs : List ARCall) : AsyncRenderer :=
  cs.foldl AsyncRenderer.step a

/-- The `Ready` state of the scheduler state machine: a genome has been set. -/
def AsyncRenderer.Ready (a : AsyncRenderer) : Prop :=
  a.genome_set = true ∧ ∃ g, a.genome = some g

theorem ready_set_genome (a : AsyncRenderer) (g : Genome) :
    (a.set_genome g).Ready := by
  exact ⟨rfl, g, rfl⟩

theorem render_some_of_ready (a : AsyncRenderer) (w h : ℕ) (t : ℚ)
    (hr : a.Ready) : (a.render w h t).isSome = true := by
  obtain ⟨hset, g, hg⟩ := hr
  unfold AsyncRenderer.render
  rw [hg, if_pos hset]
  rfl

theorem ready_step (a : AsyncRenderer) (c : ARCall) (hr : a.Ready) :
    (a.step c).Ready := by
  cases c with
  | setGenome g => exact ready_set_genome a g
  | render w h t =>
      obtain ⟨hset, g, hg⟩ := hr
      simp only [AsyncRenderer.step]
      unfold AsyncRenderer.render
      rw [hg, if_pos hset]
      exact ⟨hset, g, hg⟩

theorem ready_run (a : AsyncRenderer) (cs : List ARCall) (hr : a.Ready) :
    (a.run cs).Ready := by
  induction cs generalizing a with
  | nil => exact hr
  | cons c cs ih => exact ih (a.step c) (ready_step a c hr)

/-- C9: calling the prototype scheduler's `render` before any genome is set
panics on the `assert!` (modelled as `none`); a `set_genome` call puts the
scheduler into `Ready`, and after it every later `render`, whatever calls
come in between, passes the precondition check. -/
theorem render_precondition (settings : RenderingSettings) (w h : ℕ) (t : ℚ) :
    (AsyncRenderer.new settings).render w h t = none ∧
    ∀ (a : AsyncRenderer) (g : Genome) (cs : List ARCall) (w2 h2 : ℕ)
      (t2 : ℚ),
      (((a.set_genome g).run cs).render w2 h2 t2).isSome = true := by
  constructor
  · rfl
  · intro a g cs w2 h2 t2
    exact render_some_of_ready _ w2 h2 t2
      (ready_run (a.set_genome g) cs (ready_set_genome a g))

/-- A concrete settings value — the `dummy_settings()` of the asyncrenderer
test module. -/
def settings0 : RenderingSettings := ⟨false, 16, 60, none, 32, 32⟩

/-- A concrete genome with empty chromosomes, used as witness input. -/
def g0 : Genome := ⟨⟨[]⟩, ⟨[]⟩⟩

/-- C3 evidence: in the `src/asyncrenderer.rs` prototype, a successful
`render` call leaves the scheduler state — in particular `last_request_id` —
unchanged: after one `set_genome` the counter is 1, the `render` call
succeeds, and the state it returns still carries counter 1 instead of
advancing to a fresh id. The `Request` struct is never built and the spawned
job is not tagged with any id. -/
theorem src_render_leaves_counter_unchanged :
    (((AsyncRenderer.new settings0).set_genome g0).render 1 1 0).map Prod.fst =
      some ((AsyncRenderer.new settings0).set_genome g0) ∧
    ((((AsyncRenderer.new settings0).set_genome g0).render 1 1 0).map
        Prod.fst).map AsyncRenderer.last_request_id = some 1 ∧
    ((AsyncRenderer.new settings0).set_genome g0).last_request_id = 1 :=
  ⟨rfl, rfl, rfl⟩

/-- The request counter value after `n` successive `set_genome` calls on a
fresh prototype scheduler; since `next_request_id` returns the value it just
stored, this is also the id issued by the `n`-th call. -/
def idAfterSetGenomes (settings : RenderingSettings) (g : Genome) (n : ℕ) : ℕ :=
  ((fun a => AsyncRenderer.set_genome a g)^[n]
    (AsyncRenderer.new settings)).last_request_id

theorem set_genome_last_request_id (a : AsyncRenderer) (g : Genome) :
    (a.set_genome g).last_request_id = (a.last_request_id + 1) % 2 ^ 32 := rfl

theorem idAfterSetGenomes_eq (settings : RenderingSettings) (g : Genome) :
    ∀ n, idAfterSetGenomes settings g n = n % 2 ^ 32 := by
  intro n
  induction n with
  | zero => rfl
  | succ n ih =>
      unfold idAfterSetGenomes at ih ⊢
      rw [Function.iterate_succ_apply', set_genome_last_request_id, ih]
      omega

/-- C4 counterexample: request ids are issued by `wrapping_add(1)` on a
`u32`, so they are not strictly increasing over every sequence of calls: on
one instance, the id issued by set_genome call number `2^32 + 1` is 1, which
is smaller than the id 2 issued long before by call number 2. -/
theorem request_ids_wrap_counterexample :
    idAfterSetGenomes settings0 g0 (2 ^ 32 + 1) = 1 ∧
    idAfterSetGenomes settings0 g0 2 = 2 ∧
    idAfterSetGenomes settings0 g0 (2 ^ 32 + 1) <
      idAfterSetGenomes settings0 g0 2 := by
  simp only [idAfterSetGenomes_eq]
  norm_num

/-- C4 amended: the id issued by the `n`-th call equals `n % 2^32`, and ids
are strictly increasing as long as fewer than `2^32` ids have been issued on
the instance. -/
theorem request_ids_strictly_increasing_below_wrap
    (settings : RenderingSettings) (g : Genome) (i j : ℕ) (hij : i < j)
    (hj : j < 2 ^ 32) :
    idAfterSetGenomes settings g i < idAfterSetGenomes settings g j := by
  rw [idAfterSetGenomes_eq, idAfterSetGenomes_eq]
  rw [Nat.mod_eq_of_lt (lt_trans hij hj), Nat.mod_eq_of_lt hj]
  exact hij

/-- Witness for `request_ids_strictly_increasing_below_wrap` at the first two
calls. -/
theorem request_ids_strictly_increasing_below_wrap_witness :
    (1 < 2 ∧ 2 < 2 ^ 32) ∧
    idAfterSetGenomes settings0 g0 1 < idAfterSetGenomes settings0 g0 2 :=
  ⟨⟨by norm_num, by norm_num⟩,
    request_ids_strictly_increasing_below_wrap settings0 g0 1 2 (by norm_num)
      (by norm_num)⟩

/-- Plotting a pixel whose coordinates are inside the image bounds always
succeeds and preserves the image dimensions and buffer length. -/
theorem plot_some (img : Image) (x y : ℕ) (c : Color) (hx : x < img.width)
    (hy : y < img.height)
    (hlen : img.pixel_data.length = img.width * img.height * 3) :
    ∃ img2, img.plot x y c = some img2 ∧ img2.width = img.width ∧
      img2.height = img.height ∧
      img2.pixel_data.length = img.pixel_data.length := by
  have hb : x + y * img.width < img.width * img.height := by
    calc x + y * img.width < img.width + y * img.width := by omega
    _ = (y + 1) * img.width := by ring
    _ ≤ img.height * img.width := Nat.mul_le_mul_right img.width hy
    _ = img.width * img.height := Nat.mul_comm _ _
  have hoff : (x + y * img.width) * 3 + 2 < img.pixel_data.length := by
    rw [hlen]; omega
  refine ⟨{ img with
    pixel_data :=
      ((img.pixel_data.set ((x + y * img.width) * 3) c.r).set
          ((x + y * img.width) * 3 + 1) c.g).set
        ((x + y * img.width) * 3 + 2) c.b }, ?_, rfl, rfl, by simp⟩
  unfold Image.plot
  rw [if_pos hoff]

/-- One whole pixel row of plots succeeds and preserves dimensions. -/
theorem foldRow_some (colorAt : ℕ → Color) (y : ℕ) :
    ∀ (xs : List ℕ) (img : Image), (∀ x ∈ xs, x < img.width) →
      y < img.height →
      img.pixel_data.length = img.width * img.height * 3 →
      ∃ img2, (xs.foldlM (fun im x => im.plot x y (colorAt x)) img :
          Option Image) = some img2 ∧
        img2.width = img.width ∧ img2.height = img.height ∧
        img2.pixel_data.length = img.pixel_data.length := by
  intro xs
  induction xs with
  | nil => exact fun img _ _ _ => ⟨img, rfl, rfl, rfl, rfl⟩
  | cons x xs ih =>
      intro img hxs hy hlen
      obtain ⟨img1, h1, hw1, hh1, hl1⟩ :=
        plot_some img x y (colorAt x) (hxs x (by simp)) hy hlen
      obtain ⟨img2, h2, hw2, hh2, hl2⟩ := ih img1
        (fun z hz => hw1 ▸ hxs z (by simp [hz])) (hh1 ▸ hy)
        (by rw [hl1, hlen, hw1, hh1])
      refine ⟨img2, ?_, hw2.trans hw1, hh2.trans hh1, hl2.trans hl1⟩
      rw [List.foldlM_cons, h1]
      exact h2

/-- All pixel rows of plots succeed and preserve dimensions. -/
theorem foldAll_some (colorAt : ℕ → ℕ → Color) (W : ℕ) :
    ∀ (ys : List ℕ) (img : Image), img.width = W →
      (∀ y ∈ ys, y < img.height) →
      img.pixel_data.length = img.width * img.height * 3 →
      ∃ img2, (ys.foldlM (fun im (y : ℕ) =>
          (List.range W).foldlM
            (fun im2 (x : ℕ) => im2.plot x y (colorAt x y)) im) img :
          Option Image) = some img2 ∧
        img2.width = img.width ∧ img2.height = img.height ∧
        img2.pixel_data.length = img.pixel_data.length := by
  intro ys
  induction ys with
  | nil => exact fun img _ _ _ => ⟨img, rfl, rfl, rfl, rfl⟩
  | cons y ys ih =>
      intro img hW hys hlen
      obtain ⟨img1, h1, hw1, hh1, hl1⟩ := foldRow_some (fun x => colorAt x y) y
        (List.range W) img
        (fun x hx => hW ▸ List.mem_range.mp hx) (hys y (by simp)) hlen
      obtain ⟨img2, h2, hw2, hh2, hl2⟩ := ih img1 (hw1.trans hW)
        (fun z hz => hh1 ▸ hys z (by simp [hz]))
        (by rw [hl1, hlen, hw1, hh1])
      refine ⟨img2, ?_, hw2.trans hw1, hh2.trans hh1, hl2.trans hl1⟩
      rw [List.foldlM_cons, h1]
      exact h2

/-- `PlasmaRenderer::render` on a fresh image never panics: every pixel's
offset is in bounds, so the render always produces an image of the requested
dimensions (spec §7: the rendering pipeline is total and panic-free). -/
theorem render_total (r : PlasmaRenderer) (w h : ℕ) (t : ℚ) :
    ∃ img, r.render (Image.new w h) t = some img ∧ img.width = w ∧
      img.height = h ∧ img.pixel_data.length = w * h * 3 := by
  have hys : ∀ y ∈ List.range (Image.new w h).height,
      y < (Image.new w h).height := fun y hy => List.mem_range.mp hy
  have hlen : (Image.new w h).pixel_data.length =
      (Image.new w h).width * (Image.new w h).height * 3 := by
    simp [Image.new]
  obtain ⟨img2, h2, hw, hh, hl⟩ := foldAll_some
    (fun x y => renderColorAt r (Image.new w h) t x y) (Image.new w h).width
    (List.range (Image.new w h).height) (Image.new w h) rfl hys hlen
  exact ⟨img2, h2, hw, hh, hl.trans (by simp [Image.new])⟩

/-- C2: the image obtained through the async scheduler — `set_genome` then
`render(w, h, t)` and awaiting the future — is the very image produced by
constructing a `PlasmaRenderer` directly from the same genome and settings
and rendering a fresh `w x h` image at the same time (hence byte-identical
`pixel_data`); the async `render` call itself succeeds and returns the
scheduler state unchanged. -/
theorem async_scheduler_equals_sync_render (g : Genome)
    (s : RenderingSettings) (w h : ℕ) (t : ℚ) :
    ∃ img : Image,
      ((AsyncRenderer.new s).set_genome g).render w h t =
        some ((AsyncRenderer.new s).set_genome g, some img) ∧
      (PlasmaRenderer.new g s).render (Image.new w h) t = some img ∧
      img.width = w ∧ img.height = h := by
  obtain ⟨img, himg, hw, hh, -⟩ := render_total (PlasmaRenderer.new g s) w h t
  refine ⟨img, ?_, himg, hw, hh⟩
  show some ((AsyncRenderer.new s).set_genome g,
      (PlasmaRenderer.new g s).render (Image.new w h) t) =
    some ((AsyncRenderer.new s).set_genome g, some img)
  rw [himg]

/-- The inductive invariant of the spec-modelled scheduler: in-flight ids
never exceed the current id; the bookkept current request carries the current
id, and is the only in-flight request that does; and the response slot only
ever holds a response whose id is at most the current id, which — when it is
exactly the current id — is the rendered image of the current request. -/
def Scheduler.Inv (s : Scheduler) : Prop :=
  (∀ req ∈ s.inflight, req.request_id ≤ s.last_request_id) ∧
  (∀ req, s.current = some req → req.request_id = s.last_request_id) ∧
  (∀ req ∈ s.inflight, req.request_id = s.last_request_id →
    s.current = some req) ∧
  (∀ resp, s.latest = some resp →
    resp.request_id ≤ s.last_request_id ∧
    (resp.request_id = s.last_request_id →
      ∃ req, s.current = some req ∧
        resp.image = req.renderedImage s.settings))

theorem inv_new (st : RenderingSettings) : (Scheduler.new st).Inv := by
  refine ⟨?_, ?_, ?_, ?_⟩ <;> simp [Scheduler.new]

theorem inv_set_genome (s : Scheduler) (g : Genome) (h : s.Inv) :
    (s.set_genome g).Inv := by
  obtain ⟨h1, h2, h3, h4⟩ := h
  refine ⟨?_, ?_, ?_, ?_⟩
  · intro req hreq
    have := h1 req hreq
    show req.request_id ≤ s.last_request_id + 1
    omega
  · intro req hcur
    exact absurd hcur (by simp [Scheduler.set_genome])
  · intro req hreq heq
    have hle := h1 req hreq
    have heq2 : req.request_id = s.last_request_id + 1 := heq
    omega
  · intro resp hresp
    have hle := (h4 resp hresp).1
    constructor
    · show resp.request_id ≤ s.last_request_id + 1
      omega
    · intro heq
      have heq2 : resp.request_id = s.last_request_id + 1 := heq
      omega

theorem inv_step (s : Scheduler) (op : SchedulerOp) (h : s.Inv) :
    (s.step op).Inv := by
  obtain ⟨h1, h2, h3, h4⟩ := h
  cases op with
  | setGenome g => exact inv_set_genome s g ⟨h1, h2, h3, h4⟩
  | render w ht t =>
      show ((match s.render w ht t with
        | some (s2, _) => s2
        | none => s) : Scheduler).Inv
      unfold Scheduler.render
      by_cases hset : s.genome_set = true
      · cases hg : s.genome with
        | none => simp only [hset, if_true, hg]; exact ⟨h1, h2, h3, h4⟩
        | some g =>
            simp only [hset, if_true, hg]
            refine ⟨?_, ?_, ?_, ?_⟩
            · intro r hr
              rcases List.mem_append.mp hr with hr2 | hr2
              · have := h1 r hr2
                show r.request_id ≤ s.last_request_id + 1
                omega
              · simp at hr2
                subst hr2
                exact le_refl _
            · intro r hc
              have : r = ⟨s.last_request_id + 1, some g, w, ht, t⟩ :=
                (Option.some_inj.mp hc).symm
              subst this
              rfl
            · intro r hr hid
              rcases List.mem_append.mp hr with hr2 | hr2
              · have := h1 r hr2
                have hid2 : r.request_id = s.last_request_id + 1 := hid
                omega
              · simp at hr2
                subst hr2
                rfl
            · intro resp hresp
              have hle := (h4 resp hresp).1
              constructor
              · show resp.request_id ≤ s.last_request_id + 1
                omega
              · intro heq
                have heq2 : resp.request_id = s.last_request_id + 1 := heq
                omega
      · simp only [Bool.not_eq_true] at hset
        simp only [hset, Bool.false_eq_true, if_false]
        exact ⟨h1, h2, h3, h4⟩
  | complete k =>
      show (s.complete k).Inv
      cases hk : s.inflight[k]? with
      | none =>
          have key : s.complete k = s := by
            unfold Scheduler.complete
            rw [hk]
          rw [key]
          exact ⟨h1, h2, h3, h4⟩
      | some req =>
          have hmem : req ∈ s.inflight := List.getElem?_mem hk
          have key : s.complete k = { s with
              inflight := s.inflight.eraseIdx k
              latest := if req.request_id = s.last_request_id then
                  some ⟨req.renderedImage s.settings, req.request_id⟩
                else s.latest } := by
            unfold Scheduler.complete
            rw [hk]
          rw [key]
          by_cases hid : req.request_id = s.last_request_id
          · rw [if_pos hid]
            refine ⟨?_, h2, ?_, ?_⟩
            · intro r hr
              exact h1 r (List.mem_of_mem_eraseIdx hr)
            · intro r hr hid2
              exact h3 r (List.mem_of_mem_eraseIdx hr) hid2
            · intro resp hresp
              have hre : resp = ⟨req.renderedImage s.settings, req.request_id⟩ :=
                (Option.some_inj.mp hresp).symm
              subst hre
              exact ⟨le_of_eq hid, fun _ => ⟨req, h3 req hmem hid, rfl⟩⟩
          · rw [if_neg hid]
            refine ⟨?_, h2, ?_, h4⟩
            · intro r hr
              exact h1 r (List.mem_of_mem_eraseIdx hr)
            · intro r hr hid2
              exact h3 r (List.mem_of_mem_eraseIdx hr) hid2
  | query =>
      show ((s.get_image).2).Inv
      unfold Scheduler.get_image
      cases hl : s.latest with
      | none => exact ⟨h1, h2, h3, h4⟩
      | some resp =>
          by_cases hid : resp.request_id = s.last_request_id
          · simp only [hid, if_true]
            exact ⟨h1, h2, h3, fun r hr => by simp at hr⟩
          · simp only [hid, if_false]
            exact ⟨h1, h2, h3, h4⟩

theorem inv_exec (s : Scheduler) (ops : List SchedulerOp) (h : s.Inv) :
    (s.exec ops).Inv := by
  induction ops generalizing s with
  | nil => exact h
  | cons op ops ih => exact ih (s.step op) (inv_step s op h)

theorem step_settings (s : Scheduler) (op : SchedulerOp) :
    (s.step op).settings = s.settings := by
  cases op with
  | setGenome g => rfl
  | render w h t =>
      show ((match s.render w h t with
        | some (s2, _) => s2
        | none => s) : Scheduler).settings = s.settings
      unfold Scheduler.render
      by_cases hset : s.genome_set = true
      · cases hg : s.genome with
        | none => simp [hset, hg]
        | some g => simp [hset, hg]
      · simp only [Bool.not_eq_true] at hset
        simp [hset]
  | complete k =>
      show (s.complete k).settings = s.settings
      unfold Scheduler.complete
      cases hk : s.inflight[k]? with
      | none => rfl
      | some req =>
          by_cases hid : req.request_id = s.last_request_id <;>
            simp [hid]
  | query =>
      show ((s.get_image).2).settings = s.settings
      unfold Scheduler.get_image
      cases hl : s.latest with
      | none => rfl
      | some resp =>
          by_cases hid : resp.request_id = s.last_request_id <;>
            simp [hid]

theorem exec_settings (s : Scheduler) (ops : List SchedulerOp) :
    (s.exec ops).settings = s.settings := by
  induction ops generalizing s with
  | nil => rfl
  | cons op ops ih => exact (ih (s.step op)).trans (step_settings s op)

/-- C1: over every interleaving of `set_genome`, `render`, job completions
and queries, a query for the current image returns the authoritative
response — the rendered image of the one request whose id equals the
scheduler's current request id — when one is ready, and otherwise `none`;
it never returns an image belonging to a superseded request, even one that
finished computing before the newer request's image. -/
theorem scheduler_query_never_stale (settings : RenderingSettings)
    (ops : List SchedulerOp) :
    (∀ img, (((Scheduler.new settings).exec ops).get_image).1 = some img →
      ∃ req, ((Scheduler.new settings).exec ops).current = some req ∧
        req.request_id = ((Scheduler.new settings).exec ops).last_request_id ∧
        img = req.renderedImage settings) ∧
    (∀ resp, ((Scheduler.new settings).exec ops).latest = some resp →
      resp.request_id = ((Scheduler.new settings).exec ops).last_request_id →
      (((Scheduler.new settings).exec ops).get_image).1 = some resp.image) ∧
    ((∀ resp, ((Scheduler.new settings).exec ops).latest = some resp →
        resp.request_id ≠ ((Scheduler.new settings).exec ops).last_request_id) →
      (((Scheduler.new settings).exec ops).get_image).1 = none) := by
  have hInv := inv_exec (Scheduler.new settings) ops (inv_new settings)
  have hsett : ((Scheduler.new settings).exec ops).settings = settings :=
    exec_settings (Scheduler.new settings) ops
  set s := (Scheduler.new settings).exec ops with hs
  obtain ⟨h1, h2, h3, h4⟩ := hInv
  refine ⟨?_, ?_, ?_⟩
  · intro img himg
    cases hl : s.latest with
    | none =>
        have key : s.get_image = (none, s) := by
          unfold Scheduler.get_image
          rw [hl]
        rw [key] at himg
        exact absurd himg (by simp)
    | some resp =>
        have key : s.get_image = (if resp.request_id = s.last_request_id then
            (some resp.image, { s with latest := none }) else (none, s)) := by
          unfold Scheduler.get_image
          rw [hl]
        rw [key] at himg
        by_cases hid : resp.request_id = s.last_request_id
        · rw [if_pos hid] at himg
          have himg2 : resp.image = img := Option.some_inj.mp himg
          obtain ⟨req, hcur, himg3⟩ := (h4 resp hl).2 hid
          refine ⟨req, hcur, h2 req hcur, ?_⟩
          rw [← himg2, himg3, hsett]
        · rw [if_neg hid] at himg
          exact absurd himg (by simp)
  · intro resp hl hid
    have key : s.get_image = (if resp.request_id = s.last_request_id then
        (some resp.image, { s with latest := none }) else (none, s)) := by
      unfold Scheduler.get_image
      rw [hl]
    rw [key, if_pos hid]
  · intro hall
    cases hl : s.latest with
    | none =>
        have key : s.get_image = (none, s) := by
          unfold Scheduler.get_image
          rw [hl]
        rw [key]
    | some resp =>
        have key : s.get_image = (if resp.request_id = s.last_request_id then
            (some resp.image, { s with latest := none }) else (none, s)) := by
          unfold Scheduler.get_image
          rw [hl]
        rw [key, if_neg (hall resp hl)]

/-- Witness for `scheduler_query_never_stale`: a concrete trace — set a
genome, submit one render, complete its job — after which the query returns
exactly the current request's rendered image. -/
theorem scheduler_query_never_stale_witness :
    ((((Scheduler.new settings0).exec
        [SchedulerOp.setGenome g0, SchedulerOp.render 1 1 0,
          SchedulerOp.complete 0]).get_image).1 =
      some ((⟨2, some g0, 1, 1, 0⟩ : Request).renderedImage settings0)) ∧
    ∃ req, ((Scheduler.new settings0).exec
        [SchedulerOp.setGenome g0, SchedulerOp.render 1 1 0,
          SchedulerOp.complete 0]).current = some req ∧
      req.request_id = ((Scheduler.new settings0).exec
        [SchedulerOp.setGenome g0, SchedulerOp.render 1 1 0,
          SchedulerOp.complete 0]).last_request_id ∧
      (⟨2, some g0, 1, 1, 0⟩ : Request).renderedImage settings0 =
        req.renderedImage settings0 :=
  ⟨rfl,
    (scheduler_query_never_stale settings0
        [SchedulerOp.setGenome g0, SchedulerOp.render 1 1 0,
          SchedulerOp.complete 0]).1
      ((⟨2, some g0, 1, 1, 0⟩ : Request).renderedImage settings0) rfl⟩

end Plasma
